import Mathlib

/-!
Verification of the taxonomy/aggregation core of the openalex-raw repository:
`analyze_professor_topics.py` (professor topic aggregator) and
`extract_cs_hierarchy.py` (hierarchy extractor), shallowly embedded in Lean.

JSON-ish values are modelled explicitly: a field read with `.get` that may be
missing or null is an `Option`; a nested value that may be missing/null, a
non-mapping, the falsy empty mapping `{}`, or a truthy mapping is a `DictV`.
Python string truthiness (`if s:`) is the `truthyO` test below.
-/

/-- A JSON string field that may be missing, explicitly null, or a string
(Python distinguishes the three at `dict.get` with a default and inside
f-strings, where `None` prints as "None"). -/
inductive StrV where
  | missing
  | null
  | str (s : String)
deriving DecidableEq, Repr

/-- How `f"professor_{prof_info.get('author_id', '')}"` renders the field:
a missing key falls to the default `''`, null renders as "None". -/
def StrV.fmtDefaultEmpty : StrV → String
  | .missing => ""
  | .null => "None"
  | .str s => s

/-- Plain `dict.get('author_id')`: missing and null are both `None`. -/
def StrV.toOpt : StrV → Option String
  | .str s => some s
  | _ => none

/-- Python truthiness of an optional string: `None` and `""` are falsy. -/
def truthyO : Option String → Bool
  | some s => decide (s ≠ "")
  | none => false

/-- A nested JSON value checked by the source with
`x is None or not isinstance(x, dict) or not x` (and the analogous
`x and isinstance(x, dict)` chains): it is missing/null, a non-mapping,
the empty mapping `{}` (a falsy dict), or a nonempty mapping. -/
inductive DictV (α : Type) where
  | null
  | nonDict
  | empty
  | obj (a : α)
deriving DecidableEq, Repr

/-- The guard `x and isinstance(x, dict)` (equivalently
`x is not None and isinstance(x, dict) and x`): only a nonempty mapping
passes, and then its content is available. -/
def isDictObj : DictV α → Option α
  | .obj a => some a
  | _ => none

/-- Content of a `subfield`/`field`/`domain` sub-object of a primary topic. -/
structure SubObj where
  id : Option String
  display_name : Option String
deriving DecidableEq, Repr

/-- Content of a nonempty `primary_topic` mapping. -/
structure TopicObj where
  id : Option String
  display_name : Option String
  score : Option Int
  subfield : DictV SubObj
  field : DictV SubObj
  domain : DictV SubObj
deriving DecidableEq, Repr

/-- Content of a paper record that is a mapping. -/
structure PaperObj where
  id : Option String
  title : Option String
  publication_date : Option String
  doi : Option String
  cited_by_count : Option Int
  primary_topic : DictV TopicObj
deriving DecidableEq, Repr

/-- An element of the `papers` list: `None`, a non-mapping, or a mapping. -/
inductive PaperV where
  | null
  | nonDict
  | obj (p : PaperObj)
deriving DecidableEq, Repr

/-- The `professor_info` mapping (missing keys give the `None`/default reads
the source performs). -/
structure ProfInfo where
  author_id : StrV
  name : Option String
  department : Option String
  total_papers : Option Int
deriving DecidableEq, Repr

/-- One professor record, already parsed from JSON: `professor_info` and
`papers` with their `data.get(..., default)` defaults applied. -/
structure ProfRecord where
  professor_info : ProfInfo
  papers : List PaperV
deriving DecidableEq, Repr

/-- One row of the optional relationship file consumed by the aggregator. -/
structure CsRel where
  parent_id : Option String
  child_id : Option String
  relationship_type : Option String
  parent_name : Option String
  child_name : Option String
deriving DecidableEq, Repr

/-- The per-paper summary stored in a topic bucket (source lines 64-71). -/
structure PaperInfo where
  id : Option String
  title : Option String
  publication_date : Option String
  doi : Option String
  cited_by_count : Int
  primary_topic_score : Int
deriving DecidableEq, Repr

/-- Builds the bucket entry for a paper (`cited_by_count` and `score` read
with default 0). -/
def mkPaperInfo (p : PaperObj) (pt : TopicObj) : PaperInfo :=
  { id := p.id, title := p.title, publication_date := p.publication_date,
    doi := p.doi, cited_by_count := p.cited_by_count.getD 0,
    primary_topic_score := pt.score.getD 0 }

/-- The head of the aggregation pass for one mapping paper: the nonempty
`primary_topic` mapping together with its truthy `id` and `display_name`
(source lines 54-62); `none` when the paper is skipped. -/
def paperTopicEntryO (p : PaperObj) : Option (TopicObj × String × String) :=
  match isDictObj p.primary_topic with
  | some pt =>
    match pt.id, pt.display_name with
    | some tid, some tname =>
      if tid = "" ∨ tname = "" then none else some (pt, tid, tname)
    | _, _ => none
  | none => none

/-- Insertion into one of the dedup sets, keeping first-insertion order as the
canonical enumeration of the set's elements. -/
def insertPair (s : List (String × String)) (pr : String × String) :
    List (String × String) :=
  if pr ∈ s then s else s ++ [pr]

/-- Append to `topic_papers[k]` (a `defaultdict(list)`): a fresh key starts
an empty bucket. -/
def bucketAdd : List (String × List PaperInfo) → String → PaperInfo →
    List (String × List PaperInfo)
  | [], k, v => [(k, [v])]
  | (k', l) :: rest, k, v =>
    if k' = k then (k', l ++ [v]) :: rest else (k', l) :: bucketAdd rest k v

/-- Increment of `topic_stats[k]` (a `defaultdict(int)`). -/
def statsInc : List (String × Nat) → String → List (String × Nat)
  | [], k => [(k, 1)]
  | (k', n) :: rest, k =>
    if k' = k then (k', n + 1) :: rest else (k', n) :: statsInc rest k

/-- `topic_stats.get(k, 0)`. -/
def statsLookup : List (String × Nat) → String → Nat
  | [], _ => 0
  | (k', n) :: rest, k => if k' = k then n else statsLookup rest k

/-- `topic_papers.get(k, [])` / `topic_papers[k]` on an existing key. -/
def bucketLookup : List (String × List PaperInfo) → String → List PaperInfo
  | [], _ => []
  | (k', l) :: rest, k => if k' = k then l else bucketLookup rest k

/-- The validated (id, display_name) pair of a declared subfield/field/domain
sub-object: it must be a nonempty mapping with truthy id and name
(source lines 79-98). -/
def validSubPair (sel : TopicObj → DictV SubObj) (pt : TopicObj) :
    Option (String × String) :=
  match isDictObj (sel pt) with
  | some d =>
    match d.id, d.display_name with
    | some i, some n => if i = "" ∨ n = "" then none else some (i, n)
    | _, _ => none
  | none => none

/-- Records a validated sub-object pair into its dedup set. -/
def addSub (sel : TopicObj → DictV SubObj) (s : List (String × String))
    (pt : TopicObj) : List (String × String) :=
  match validSubPair sel pt with
  | some pr => insertPair s pr
  | none => s

/-- State of the single aggregation pass (source lines 40-47). -/
structure AggState where
  topic_papers : List (String × List PaperInfo)
  topic_stats : List (String × Nat)
  fields : List (String × String)
  subfields : List (String × String)
  topics : List (String × String)
  domains : List (String × String)
deriving DecidableEq, Repr

def initAgg : AggState :=
  { topic_papers := [], topic_stats := [], fields := [], subfields := [],
    topics := [], domains := [] }

/-- One iteration of the aggregation loop (source lines 49-98). -/
def processPaper (st : AggState) (pv : PaperV) : AggState :=
  match pv with
  | .obj p =>
    match paperTopicEntryO p with
    | some (pt, tid, tname) =>
      { topic_papers := bucketAdd st.topic_papers tid (mkPaperInfo p pt)
        topic_stats := statsInc st.topic_stats tid
        topics := insertPair st.topics (tid, tname)
        subfields := addSub TopicObj.subfield st.subfields pt
        fields := addSub TopicObj.field st.fields pt
        domains := addSub TopicObj.domain st.domains pt }
    | none => st
  | _ => st

/-- The aggregation pass over the whole `papers` list. -/
def aggStateOf (papers : List PaperV) : AggState :=
  papers.foldl processPaper initAgg

/-- The representative-topic test of the report rescan (source lines 115-121):
a paper yields its `primary_topic` when that is a truthy mapping whose id
equals the bucket key. -/
def topicDetailOf (tid : String) : PaperV → Option TopicObj
  | .obj p =>
    match isDictObj p.primary_topic with
    | some pt => if pt.id = some tid then some pt else none
    | none => none
  | _ => none

/-- First representative `primary_topic` for a bucket key (source line 113-121). -/
def findTopicDetail (papers : List PaperV) (tid : String) : Option TopicObj :=
  papers.findSome? (topicDetailOf tid)

/-- Mean citation count of a bucket (source line 134), exact over ℚ. -/
def avgCitations (l : List PaperInfo) : ℚ :=
  if l = [] then 0
  else (((l.map PaperInfo.cited_by_count).sum : ℤ) : ℚ) / (l.length : ℚ)

/-- One entry of `topics_with_papers` (source lines 124-135). -/
structure TopicEntry where
  topic_id : String
  topic_name : Option String
  topic_subfield : DictV SubObj
  topic_field : DictV SubObj
  topic_domain : DictV SubObj
  paper_count : Nat
  papers : List PaperInfo
  avg_citations : ℚ
deriving DecidableEq, Repr

/-- Builds the report entry for one bucket, when the rescan recovers a
representative topic detail (source lines 111-135). -/
def topicEntryFor (papers : List PaperV) (kv : String × List PaperInfo) :
    Option TopicEntry :=
  match findTopicDetail papers kv.1 with
  | some td =>
    some { topic_id := kv.1, topic_name := td.display_name,
           topic_subfield := td.subfield, topic_field := td.field,
           topic_domain := td.domain, paper_count := kv.2.length,
           papers := kv.2, avg_citations := avgCitations kv.2 }
  | none => none

/-- The `topics_with_papers` mapping, in bucket (dict-insertion) order. -/
def analysisEntries (papers : List PaperV) : List TopicEntry :=
  (aggStateOf papers).topic_papers.filterMap (topicEntryFor papers)

/-- Properties mapping of an emitted entity, per entity kind. -/
inductive AProps where
  | professorP (author_id : Option String) (department : Option String)
      (total_papers : Int) (total_topics : Nat)
  | countOnly (paper_count : Nat)
  | topicProps (paper_count : Nat) (papers : List (Option String))
deriving DecidableEq, Repr

/-- An entity of the aggregator's taxonomy output. -/
structure AEntity where
  id : String
  etype : String
  name : Option String
  props : AProps
deriving DecidableEq, Repr

/-- A relation of the aggregator's taxonomy output. -/
structure ARel where
  source : String
  target : String
  rtype : String
  paper_count : Option Nat
  papersIds : Option (List (Option String))
  parent_name : Option String
  child_name : Option String
deriving DecidableEq, Repr

/-- The `paper_count` field of an entity's properties, when it has one. -/
def propsCount : AProps → Option Nat
  | .professorP _ _ _ _ => none
  | .countOnly n => some n
  | .topicProps n _ => some n

/-- The full-rescan membership test used when emitting a domain, field or
subfield entity (source lines 159-166, 181-188, 203-210): the paper's
`primary_topic` is a truthy mapping whose `sel` sub-object is a truthy
mapping with the entity's id. -/
def rescanPred (sel : TopicObj → DictV SubObj) (eid : String) : PaperV → Bool
  | .obj p =>
    match isDictObj p.primary_topic with
    | some pt =>
      match isDictObj (sel pt) with
      | some d => decide (d.id = some eid)
      | none => false
    | none => false
  | _ => false

/-- The rescan-based `paper_count` of a domain/field/subfield entity. -/
def rescanCount (sel : TopicObj → DictV SubObj) (eid : String)
    (papers : List PaperV) : Nat :=
  papers.countP (rescanPred sel eid)

/-- The professor entity (source lines 142-153). -/
def profEntityOf (pinf : ProfInfo) (ntopics : Nat) : AEntity :=
  { id := "professor_" ++ pinf.author_id.fmtDefaultEmpty, etype := "professor",
    name := pinf.name,
    props := AProps.professorP pinf.author_id.toOpt pinf.department
      (pinf.total_papers.getD 0) ntopics }

/-- A domain/field/subfield entity from a dedup-set member, re-checking the
truthiness guard the source repeats at emission (lines 157, 179, 201). -/
def levelEntity (ty : String) (sel : TopicObj → DictV SubObj)
    (papers : List PaperV) (dn : String × String) : Option AEntity :=
  if dn.1 = "" ∨ dn.2 = "" then none
  else some { id := dn.1, etype := ty, name := some dn.2,
              props := AProps.countOnly (rescanCount sel dn.1 papers) }

/-- A topic entity (source lines 222-232): its count is the bucket-based
`topic_stats.get(topic_id, 0)`. -/
def topicEntityOf (st : AggState) (tn : String × String) : AEntity :=
  { id := tn.1, etype := "topic", name := some tn.2,
    props := AProps.topicProps (statsLookup st.topic_stats tn.1)
      ((bucketLookup st.topic_papers tn.1).map PaperInfo.id) }

/-- The `works_on` relations, one per bucket key in dict order
(source lines 236-245). -/
def worksOnRels (profId : String) (st : AggState) : List ARel :=
  st.topic_papers.map fun kv =>
    { source := profId, target := kv.1, rtype := "works_on",
      paper_count := some (statsLookup st.topic_stats kv.1),
      papersIds := some ((bucketLookup st.topic_papers kv.1).map PaperInfo.id),
      parent_name := none, child_name := none }

/-- The hierarchy relations pruned to the professor's entity ids
(source lines 248-267); `none` models an absent relationship file. -/
def hierRels (ids : List String) : Option (List CsRel) → List ARel
  | none => []
  | some lst =>
    lst.filterMap fun cr =>
      match cr.parent_id, cr.child_id with
      | some pid, some cid =>
        if pid ∈ ids ∧ cid ∈ ids then
          some { source := pid, target := cid,
                 rtype := cr.relationship_type.getD "hierarchical",
                 paper_count := none, papersIds := none,
                 parent_name := cr.parent_name, child_name := cr.child_name }
        else none
      | _, _ => none

/-- The aggregator's full output record. -/
structure AnalysisResult where
  professor_info : ProfInfo
  total_topics : Nat
  total_papers_analyzed : Nat
  topics_with_papers : List TopicEntry
  entities : List AEntity
  relations : List ARel
deriving DecidableEq, Repr

/-- The aggregator, parameterised by the iteration order `σ` CPython uses for
the four dedup sets when emitting entities: the language fixes no order for
`for x in someset`, and with string-hash randomization it varies across
processes. `σ` receives the set's elements in first-insertion order and
returns them in iteration order (always some permutation). -/
def analyzeOrd (σ : List (String × String) → List (String × String))
    (r : ProfRecord) (rels : Option (List CsRel)) : AnalysisResult :=
  let st := aggStateOf r.papers
  let profE := profEntityOf r.professor_info st.topic_papers.length
  let entities := profE ::
    ((σ st.domains).filterMap (levelEntity "domain" TopicObj.domain r.papers) ++
     (σ st.fields).filterMap (levelEntity "field" TopicObj.field r.papers) ++
     (σ st.subfields).filterMap
       (levelEntity "subfield" TopicObj.subfield r.papers) ++
     (σ st.topics).map (topicEntityOf st))
  { professor_info := r.professor_info
    total_topics := st.topic_papers.length
    total_papers_analyzed := r.papers.length
    topics_with_papers := analysisEntries r.papers
    entities := entities
    relations := worksOnRels profE.id st ++ hierRels (entities.map AEntity.id) rels }

/-- The aggregator with the canonical (first-insertion) set order. -/
def analyze_professor_topics (r : ProfRecord) (rels : Option (List CsRel)) :
    AnalysisResult :=
  analyzeOrd id r rels

/-! ## Spec-side definitions for the redundant-count comparison (C1)

The spec (§4.2 step 5, §8, §9) asserts that per entity a bucket-based count
and a full-rescan-based count coincide.  The rescan computation is
`rescanCount` above, straight from the source; the definitions below state,
in the spec's words, the bucket-based count ("papers accumulated into that
topic's bucket in step 2, with the sub-objects validated there") and the
rescan count for a topic entity ("a fresh full scan counting papers whose
primary_topic.id equals the entity id"). -/

/-- Tests whether a paper is accumulated into the bucket keyed `tid` during
the single aggregation pass. -/
def bucketKeyPred (tid : String) : PaperV → Bool
  | .obj p =>
    match paperTopicEntryO p with
    | some (_, k, _) => decide (k = tid)
    | none => false
  | _ => false

/-- Bucket-based `paper_count` of a topic entity: how many papers the
aggregation pass put into its bucket. -/
def bucketTopicCount (tid : String) (papers : List PaperV) : Nat :=
  papers.countP (bucketKeyPred tid)

/-- Spec-worded rescan test for a topic entity: the paper's truthy-mapping
`primary_topic` has `id` equal to the entity id. -/
def specTopicRescanPred (tid : String) : PaperV → Bool
  | .obj p =>
    match isDictObj p.primary_topic with
    | some pt => decide (pt.id = some tid)
    | none => false
  | _ => false

/-- Spec-worded rescan count for a topic entity. -/
def specTopicRescanCount (tid : String) (papers : List PaperV) : Nat :=
  papers.countP (specTopicRescanPred tid)

/-- Tests whether a paper is accumulated in the aggregation pass with its
validated `sel` sub-object carrying the entity id `eid`: the bucket-based
membership for a domain/field/subfield entity. -/
def bucketLevelPred (sel : TopicObj → DictV SubObj) (eid : String) :
    PaperV → Bool
  | .obj p =>
    match paperTopicEntryO p with
    | some (pt, _, _) =>
      match validSubPair sel pt with
      | some pr => decide (pr.1 = eid)
      | none => false
    | none => false
  | _ => false

/-- Bucket-based `paper_count` of a domain/field/subfield entity. -/
def bucketLevelCount (sel : TopicObj → DictV SubObj) (eid : String)
    (papers : List PaperV) : Nat :=
  papers.countP (bucketLevelPred sel eid)

/-- Well-formedness of a declared sub-object, per the spec's data model
(§3, §4.2 step 2): when present as a truthy mapping it carries truthy
`id` and `display_name`. -/
def wfSub : DictV SubObj → Bool
  | .obj d => truthyO d.id && truthyO d.display_name
  | _ => true

/-- Well-formedness of one paper, per the spec's Publication Record shape
(§3): a truthy-mapping `primary_topic` carries truthy `id` and
`display_name`, and each declared sub-object is well-formed. -/
def wfPaper : PaperV → Bool
  | .obj p =>
    match isDictObj p.primary_topic with
    | some pt =>
      truthyO pt.id && truthyO pt.display_name &&
        wfSub pt.subfield && wfSub pt.field && wfSub pt.domain
    | none => true
  | _ => true

/-- Well-formedness of a professor record: every paper is well-formed. -/
def wfRecord (r : ProfRecord) : Bool :=
  r.papers.all wfPaper

/-- The property claimed of each emitted entity: its emitted `paper_count`
and the independently computed bucket-based count agree with the
rescan-based count, at its own level. -/
def C1Prop (r : ProfRecord) (e : AEntity) : Prop :=
  (e.etype = "domain" →
    propsCount e.props = some (rescanCount TopicObj.domain e.id r.papers) ∧
    bucketLevelCount TopicObj.domain e.id r.papers =
      rescanCount TopicObj.domain e.id r.papers) ∧
  (e.etype = "field" →
    propsCount e.props = some (rescanCount TopicObj.field e.id r.papers) ∧
    bucketLevelCount TopicObj.field e.id r.papers =
      rescanCount TopicObj.field e.id r.papers) ∧
  (e.etype = "subfield" →
    propsCount e.props = some (rescanCount TopicObj.subfield e.id r.papers) ∧
    bucketLevelCount TopicObj.subfield e.id r.papers =
      rescanCount TopicObj.subfield e.id r.papers) ∧
  (e.etype = "topic" →
    propsCount e.props = some (bucketTopicCount e.id r.papers) ∧
    bucketTopicCount e.id r.papers = specTopicRescanCount e.id r.papers)

/-! ## The hierarchy extractor (`extract_cs_hierarchy.py`) -/

/-- The level at which the first pass finds the target node. -/
inductive HLevel where
  | domain
  | field
  | subfield
deriving DecidableEq, Repr

/-- Positional access into a split row (used only behind the length-≥-11
guard, so the default never shows through on processed rows). -/
def rowGet (row : List String) (i : Nat) : String :=
  row.getD i ""

/-- First pass (source lines 36-60): the first level at which some
well-formed row's name matches the target, checking domain, then field,
then subfield within each row. -/
def findLevel (table : List (List String)) (target : String) : Option HLevel :=
  table.findSome? fun row =>
    if row.length < 11 then none
    else if rowGet row 7 = target then some HLevel.domain
    else if rowGet row 5 = target then some HLevel.field
    else if rowGet row 3 = target then some HLevel.subfield
    else none

/-- An entity of the extractor's output; topic entities additionally carry
keywords/summary/link. -/
structure EEntity where
  id : String
  name : String
  original_id : String
  etype : String
  keywords : Option String
  summary : Option String
  link : Option String
deriving DecidableEq, Repr

/-- A parent/child relationship record of the extractor's output. -/
structure ERel where
  parent_id : String
  parent_name : String
  child_id : String
  child_name : String
  relationship_type : String
deriving DecidableEq, Repr

/-- State of the second pass: entities, relationships, and the seen-id set. -/
structure ExtState where
  entities : List EEntity
  relationships : List ERel
  seen : List String
deriving DecidableEq, Repr

def initExt : ExtState :=
  { entities := [], relationships := [], seen := [] }

/-- Adds the domain entity, only at domain level and only once
(source lines 110-119). -/
def stepDomain (lvl : HLevel) (dId domain_name domain_id : String)
    (st : ExtState) : ExtState :=
  if lvl = HLevel.domain ∧ dId ∉ st.seen then
    { st with
      entities := st.entities ++
        [{ id := dId, name := domain_name, original_id := domain_id,
           etype := "domain", keywords := none, summary := none, link := none }]
      seen := st.seen ++ [dId] }
  else st

/-- Adds the field entity when first seen (at domain or field level), and
with it the domain→field relationship at domain level
(source lines 122-140). -/
def stepField (lvl : HLevel) (dId domain_name fId field_name field_id : String)
    (st : ExtState) : ExtState :=
  if (lvl = HLevel.domain ∨ lvl = HLevel.field) ∧ fId ∉ st.seen then
    let st' :=
      { st with
        entities := st.entities ++
          [{ id := fId, name := field_name, original_id := field_id,
             etype := "field", keywords := none, summary := none, link := none }]
        seen := st.seen ++ [fId] }
    if lvl = HLevel.domain then
      { st' with
        relationships := st'.relationships ++
          [{ parent_id := dId, parent_name := domain_name, child_id := fId,
             child_name := field_name, relationship_type := "domain_to_field" }] }
    else st'
  else st

/-- Adds the subfield entity when first seen, and with it the field→subfield
relationship at domain/field level (source lines 143-160). -/
def stepSubfield (lvl : HLevel)
    (fId field_name sId subfield_name subfield_id : String)
    (st : ExtState) : ExtState :=
  if sId ∉ st.seen then
    let st' :=
      { st with
        entities := st.entities ++
          [{ id := sId, name := subfield_name, original_id := subfield_id,
             etype := "subfield", keywords := none, summary := none,
             link := none }]
        seen := st.seen ++ [sId] }
    if lvl = HLevel.domain ∨ lvl = HLevel.field then
      { st' with
        relationships := st'.relationships ++
          [{ parent_id := fId, parent_name := field_name, child_id := sId,
             child_name := subfield_name,
             relationship_type := "field_to_subfield" }] }
    else st'
  else st

/-- Unconditionally adds the topic entity and the subfield→topic
relationship (source lines 163-180): no dedup, nothing enters `seen`. -/
def stepTopic (sId subfield_name tId topic_name topic_id kw summ lnk : String)
    (st : ExtState) : ExtState :=
  { st with
    entities := st.entities ++
      [{ id := tId, name := topic_name, original_id := topic_id,
         etype := "topic", keywords := some kw, summary := some summ,
         link := some lnk }]
    relationships := st.relationships ++
      [{ parent_id := sId, parent_name := subfield_name, child_id := tId,
         child_name := topic_name, relationship_type := "subfield_to_topic" }] }

/-- Whether the second pass processes a row, per the determined level
(source lines 90-99). -/
def shouldProcess (lvl : HLevel) (target : String) (row : List String) : Bool :=
  match lvl with
  | .domain => decide (rowGet row 7 = target)
  | .field => decide (rowGet row 5 = target)
  | .subfield => decide (rowGet row 3 = target)

/-- One iteration of the second pass (source lines 70-184). -/
def processRow (lvl : HLevel) (target : String) (st : ExtState)
    (row : List String) : ExtState :=
  if row.length < 11 then st
  else if shouldProcess lvl target row then
    let dId := "https://openalex.org/domains/" ++ rowGet row 6
    let fId := "https://openalex.org/fields/" ++ rowGet row 4
    let sId := "https://openalex.org/subfields/" ++ rowGet row 2
    let tId := "https://openalex.org/T" ++ rowGet row 0
    stepTopic sId (rowGet row 3) tId (rowGet row 1) (rowGet row 0)
      (rowGet row 8) (rowGet row 9) (rowGet row 10)
      (stepSubfield lvl fId (rowGet row 5) sId (rowGet row 3) (rowGet row 2)
        (stepField lvl dId (rowGet row 7) fId (rowGet row 5) (rowGet row 4)
          (stepDomain lvl dId (rowGet row 7) (rowGet row 6) st)))
  else st

/-- The extractor (source lines 21-186): not-found yields two empty lists. -/
def extract_hierarchy (table : List (List String)) (target : String) :
    List EEntity × List ERel :=
  match findLevel table target with
  | none => ([], [])
  | some lvl =>
    let st := table.foldl (processRow lvl target) initExt
    (st.entities, st.relationships)

/-- The ids of the non-topic entities of an extractor state. -/
def nonTopicIds (st : ExtState) : List String :=
  (st.entities.filter fun e => decide (e.etype ≠ "topic")).map EEntity.id

/-- The (parent_id, child_id) pairs of the relationships of one type. -/
def relPairsOfType (ty : String) (rels : List ERel) : List (String × String) :=
  (rels.filter fun rl => decide (rl.relationship_type = ty)).map
    fun rl => (rl.parent_id, rl.child_id)

/-- Whether extraction on `table` for `target` emits two relationship records
of type `ty` for the same parent/child pair. -/
def hasDupPairs (ty : String) (table : List (List String)) (target : String) :
    Prop :=
  ¬ (relPairsOfType ty (extract_hierarchy table target).2).Nodup

/-- The byte-identity conclusion the rerun claim supports once the set
iteration orders are made explicit: the report and the relations are
identical, and the entity list is identical up to order within the four
type blocks. -/
def C3Prop (σ₁ σ₂ : List (String × String) → List (String × String))
    (r : ProfRecord) (rels : Option (List CsRel)) : Prop :=
  (analyzeOrd σ₁ r rels).professor_info = (analyzeOrd σ₂ r rels).professor_info ∧
  (analyzeOrd σ₁ r rels).total_topics = (analyzeOrd σ₂ r rels).total_topics ∧
  (analyzeOrd σ₁ r rels).total_papers_analyzed =
    (analyzeOrd σ₂ r rels).total_papers_analyzed ∧
  (analyzeOrd σ₁ r rels).topics_with_papers =
    (analyzeOrd σ₂ r rels).topics_with_papers ∧
  (analyzeOrd σ₁ r rels).entities.Perm ((analyzeOrd σ₂ r rels).entities) ∧
  (analyzeOrd σ₁ r rels).relations = (analyzeOrd σ₂ r rels).relations

/-- What excluding a no-topic paper means: it is counted in
`total_papers_analyzed` (which is the length of the papers list) and
nothing else in the output changes when it is removed. -/
def C4Prop (pinf : ProfInfo) (l₁ l₂ : List PaperV) (pv : PaperV)
    (rels : Option (List CsRel)) : Prop :=
  (analyze_professor_topics (ProfRecord.mk pinf (l₁ ++ pv :: l₂)) rels).total_papers_analyzed =
    (l₁ ++ pv :: l₂).length ∧
  (analyze_professor_topics (ProfRecord.mk pinf (l₁ ++ pv :: l₂)) rels).total_papers_analyzed =
    (analyze_professor_topics (ProfRecord.mk pinf (l₁ ++ l₂)) rels).total_papers_analyzed + 1 ∧
  aggStateOf (l₁ ++ pv :: l₂) = aggStateOf (l₁ ++ l₂) ∧
  (analyze_professor_topics (ProfRecord.mk pinf (l₁ ++ pv :: l₂)) rels).topics_with_papers =
    (analyze_professor_topics (ProfRecord.mk pinf (l₁ ++ l₂)) rels).topics_with_papers ∧
  (analyze_professor_topics (ProfRecord.mk pinf (l₁ ++ pv :: l₂)) rels).entities =
    (analyze_professor_topics (ProfRecord.mk pinf (l₁ ++ l₂)) rels).entities ∧
  (analyze_professor_topics (ProfRecord.mk pinf (l₁ ++ pv :: l₂)) rels).relations =
    (analyze_professor_topics (ProfRecord.mk pinf (l₁ ++ l₂)) rels).relations

/-- The (id, name) pair that the aggregator's dedup sets actually key on. -/
def entityKey (e : AEntity) : String × Option String :=
  (e.id, e.name)

/-- Invariant of the extractor's second pass: non-topic entity ids are
distinct and recorded in `seen`, and the domain→field and field→subfield
relationship pair lists are duplicate-free with their child ids in `seen`. -/
def extSeenInv (st : ExtState) : Prop :=
  (nonTopicIds st).Nodup ∧ (∀ i ∈ nonTopicIds st, i ∈ st.seen) ∧
  (relPairsOfType "domain_to_field" st.relationships).Nodup ∧
  (∀ pr ∈ relPairsOfType "domain_to_field" st.relationships, pr.2 ∈ st.seen) ∧
  (relPairsOfType "field_to_subfield" st.relationships).Nodup ∧
  (∀ pr ∈ relPairsOfType "field_to_subfield" st.relationships, pr.2 ∈ st.seen)

/-! ## Concrete inputs used by witnesses and counterexamples -/

def subD1 : SubObj :=
  { id := some "D1", display_name := some "DomX" }

def subD2 : SubObj :=
  { id := some "D2", display_name := some "DomY" }

def ptop1 : TopicObj :=
  { id := some "T1", display_name := some "TopA", score := some 3,
    subfield := DictV.null, field := DictV.null, domain := DictV.obj subD1 }

def ptop2 : TopicObj :=
  { id := some "T2", display_name := some "TopB", score := none,
    subfield := DictV.null, field := DictV.null, domain := DictV.obj subD2 }

def pap1 : PaperV :=
  PaperV.obj
    { id := some "W1", title := some "t1", publication_date := none,
      doi := none, cited_by_count := some 7, primary_topic := DictV.obj ptop1 }

def pap2 : PaperV :=
  PaperV.obj
    { id := some "W2", title := some "t2", publication_date := none,
      doi := none, cited_by_count := none, primary_topic := DictV.obj ptop2 }

def pinfW : ProfInfo :=
  { author_id := StrV.str "A5", name := some "Ada", department := some "CS",
    total_papers := some 2 }

/-- A two-paper, two-domain record. -/
def r2 : ProfRecord :=
  { professor_info := pinfW, papers := [pap1, pap2] }

/-- A topic with the same id as `ptop1` but a different display name. -/
def ptop1b : TopicObj :=
  { id := some "T1", display_name := some "TopAprime", score := none,
    subfield := DictV.null, field := DictV.null, domain := DictV.null }

def pap1b : PaperV :=
  PaperV.obj
    { id := some "W3", title := none, publication_date := none,
      doi := none, cited_by_count := none, primary_topic := DictV.obj ptop1b }

/-- Two papers sharing a topic id under two display names. -/
def rDup : ProfRecord :=
  { professor_info := pinfW, papers := [pap1, pap1b] }

/-- A mapping paper whose `primary_topic` is the empty mapping. -/
def papBad : PaperObj :=
  { id := some "W9", title := some "t9", publication_date := none,
    doi := none, cited_by_count := some 4, primary_topic := DictV.empty }

/-- The domain entity that aggregation of `r2` emits for `subD1`. -/
def entD1 : AEntity :=
  { id := "D1", etype := "domain", name := some "DomX",
    props := AProps.countOnly 1 }

/-- One well-formed 11-field reference row whose domain name is Biology. -/
def bioRow : List String :=
  ["10001", "Genetics", "2716", "GeneSub", "27", "BioField", "1", "Biology",
   "kw", "sum", "lnk"]

def tblBio : List (List String) :=
  [bioRow]

/-- The same qualifying row twice. -/
def tblBio2 : List (List String) :=
  [bioRow, bioRow]

/-! ## Helper lemmas about the aggregation pass -/

theorem truthyO_iff (o : Option String) :
    truthyO o = true ↔ ∃ s, o = some s ∧ s ≠ "" := by
  cases o with
  | none => simp [truthyO]
  | some s => simp [truthyO]

theorem isDictObj_eq_some {α : Type} (x : DictV α) (a : α) :
    isDictObj x = some a ↔ x = DictV.obj a := by
  cases x <;> simp [isDictObj]

theorem statsLookup_statsInc (s : List (String × Nat)) (k tid : String) :
    statsLookup (statsInc s k) tid =
      statsLookup s tid + (if k = tid then 1 else 0) := by
  induction s with
  | nil => by_cases h : k = tid <;> simp [statsInc, statsLookup, h]
  | cons kv rest ih =>
    obtain ⟨k', n⟩ := kv
    by_cases h1 : k' = k
    · subst h1
      by_cases h2 : k' = tid <;> simp [statsInc, statsLookup, h2]
    · by_cases h2 : k' = tid
      · subst h2
        simp [statsInc, statsLookup, h1, if_neg h1]
        intro h
        exact absurd h.symm h1
      · simp [statsInc, statsLookup, h1, h2, ih]

theorem processPaper_stats (st : AggState) (pv : PaperV) (tid : String) :
    statsLookup (processPaper st pv).topic_stats tid =
      statsLookup st.topic_stats tid + (if bucketKeyPred tid pv then 1 else 0) := by
  cases pv with
  | null => simp [processPaper, bucketKeyPred]
  | nonDict => simp [processPaper, bucketKeyPred]
  | obj p =>
    cases he : paperTopicEntryO p with
    | none => simp [processPaper, bucketKeyPred, he]
    | some e =>
      obtain ⟨pt, k, tn⟩ := e
      by_cases h : k = tid <;>
        simp [processPaper, bucketKeyPred, he, statsLookup_statsInc, h]

theorem stats_fold (l : List PaperV) (st : AggState) (tid : String) :
    statsLookup ((l.foldl processPaper st).topic_stats) tid =
      statsLookup st.topic_stats tid + l.countP (bucketKeyPred tid) := by
  induction l generalizing st with
  | nil => simp
  | cons pv rest ih =>
    simp only [List.foldl_cons, ih, processPaper_stats, List.countP_cons]
    by_cases h : bucketKeyPred tid pv
    · simp [h]
      omega
    · simp [h]

theorem statsLookup_aggState (papers : List PaperV) (tid : String) :
    statsLookup (aggStateOf papers).topic_stats tid = bucketTopicCount tid papers := by
  simp [aggStateOf, bucketTopicCount, stats_fold, initAgg, statsLookup]

theorem rescanPred_eq_bucketLevelPred (sel : TopicObj → DictV SubObj)
    (eid : String) (pv : PaperV)
    (hwf : ∀ p pt, pv = PaperV.obj p → isDictObj p.primary_topic = some pt →
      truthyO pt.id = true ∧ truthyO pt.display_name = true ∧
        wfSub (sel pt) = true) :
    rescanPred sel eid pv = bucketLevelPred sel eid pv := by
  cases pv with
  | null => rfl
  | nonDict => rfl
  | obj p =>
    cases hpt : isDictObj p.primary_topic with
    | none => simp [rescanPred, bucketLevelPred, paperTopicEntryO, hpt]
    | some pt =>
      obtain ⟨h1, h2, h3⟩ := hwf p pt rfl hpt
      obtain ⟨tid, hid, hid0⟩ := (truthyO_iff pt.id).1 h1
      obtain ⟨tname, hname, hname0⟩ := (truthyO_iff pt.display_name).1 h2
      have hentry : paperTopicEntryO p = some (pt, tid, tname) := by
        simp [paperTopicEntryO, hpt, hid, hname, hid0, hname0]
      cases hsd : isDictObj (sel pt) with
      | none =>
        simp [rescanPred, bucketLevelPred, hpt, hentry, validSubPair, hsd]
      | some d =>
        have hobj : sel pt = DictV.obj d := (isDictObj_eq_some _ _).1 hsd
        rw [hobj] at h3
        simp only [wfSub, Bool.and_eq_true] at h3
        obtain ⟨i, hi, hi0⟩ := (truthyO_iff d.id).1 h3.1
        obtain ⟨n, hn, hn0⟩ := (truthyO_iff d.display_name).1 h3.2
        simp [rescanPred, bucketLevelPred, hpt, hentry, validSubPair, hsd,
          hi, hn, hi0, hn0]

theorem topicRescanPred_eq_bucketKeyPred (tid : String) (pv : PaperV)
    (hwf : wfPaper pv = true) :
    specTopicRescanPred tid pv = bucketKeyPred tid pv := by
  cases pv with
  | null => rfl
  | nonDict => rfl
  | obj p =>
    cases hpt : isDictObj p.primary_topic with
    | none => simp [specTopicRescanPred, bucketKeyPred, paperTopicEntryO, hpt]
    | some pt =>
      simp only [wfPaper, hpt, Bool.and_eq_true] at hwf
      obtain ⟨⟨⟨⟨h1, h2⟩, _⟩, _⟩, _⟩ := hwf
      obtain ⟨k, hid, hid0⟩ := (truthyO_iff pt.id).1 h1
      obtain ⟨tn, hname, hname0⟩ := (truthyO_iff pt.display_name).1 h2
      have hentry : paperTopicEntryO p = some (pt, k, tn) := by
        simp [paperTopicEntryO, hpt, hid, hname, hid0, hname0]
      simp [specTopicRescanPred, bucketKeyPred, hentry, hpt, hid]

theorem countP_congrB {α : Type} (p q : α → Bool) (l : List α)
    (h : ∀ a ∈ l, p a = q a) : l.countP p = l.countP q := by
  induction l with
  | nil => rfl
  | cons a as ih =>
    simp only [List.countP_cons, h a (List.mem_cons_self a as)]
    rw [ih fun x hx => h x (List.mem_cons_of_mem a hx)]

theorem wfPaper_parts (p : PaperObj) (pt : TopicObj)
    (h : wfPaper (PaperV.obj p) = true)
    (hpt : isDictObj p.primary_topic = some pt) :
    truthyO pt.id = true ∧ truthyO pt.display_name = true ∧
      wfSub pt.subfield = true ∧ wfSub pt.field = true ∧
      wfSub pt.domain = true := by
  simp only [wfPaper, hpt, Bool.and_eq_true] at h
  tauto

theorem wf_bucketLevel_eq_rescan (sel : TopicObj → DictV SubObj)
    (hsel : ∀ pt, sel pt = pt.subfield ∨ sel pt = pt.field ∨ sel pt = pt.domain)
    (eid : String) (papers : List PaperV)
    (hwf : papers.all wfPaper = true) :
    bucketLevelCount sel eid papers = rescanCount sel eid papers := by
  unfold bucketLevelCount rescanCount
  apply countP_congrB
  intro pv hpv
  have hw : wfPaper pv = true := (List.all_eq_true.1 hwf) pv hpv
  refine (rescanPred_eq_bucketLevelPred sel eid pv ?_).symm
  intro p pt hp hpt
  subst hp
  obtain ⟨h1, h2, h3, h4, h5⟩ := wfPaper_parts p pt hw hpt
  refine ⟨h1, h2, ?_⟩
  rcases hsel pt with hs | hs | hs <;> rw [hs] <;> assumption

theorem wf_bucketTopic_eq_specRescan (tid : String) (papers : List PaperV)
    (hwf : papers.all wfPaper = true) :
    bucketTopicCount tid papers = specTopicRescanCount tid papers := by
  unfold bucketTopicCount specTopicRescanCount
  apply countP_congrB
  intro pv hpv
  exact (topicRescanPred_eq_bucketKeyPred tid pv ((List.all_eq_true.1 hwf) pv hpv)).symm

theorem mem_levelEntity_block (ty : String) (sel : TopicObj → DictV SubObj)
    (papers : List PaperV) (l : List (String × String)) (e : AEntity)
    (he : e ∈ l.filterMap (levelEntity ty sel papers)) :
    e.etype = ty ∧ e.props = AProps.countOnly (rescanCount sel e.id papers) := by
  rcases List.mem_filterMap.1 he with ⟨dn, _, hdn⟩
  unfold levelEntity at hdn
  split at hdn
  · exact absurd hdn (by simp)
  · rw [Option.some.injEq] at hdn
    subst hdn
    exact ⟨rfl, rfl⟩

theorem mem_topic_block (st : AggState) (l : List (String × String)) (e : AEntity)
    (he : e ∈ l.map (topicEntityOf st)) :
    e.etype = "topic" ∧
      e.props = AProps.topicProps (statsLookup st.topic_stats e.id)
        ((bucketLookup st.topic_papers e.id).map PaperInfo.id) := by
  rcases List.mem_map.1 he with ⟨tn, _, htn⟩
  subst htn
  exact ⟨rfl, rfl⟩

/-- C1: for any well-formed professor record, the bucket-based and the
full-rescan-based `paper_count` agree for every emitted domain, field,
subfield and topic entity of the aggregator's taxonomy output, and the
emitted count equals both. -/
theorem C1_redundant_paper_counts (r : ProfRecord) (rels : Option (List CsRel))
    (hwf : wfRecord r = true) :
    ∀ e ∈ (analyze_professor_topics r rels).entities, C1Prop r e := by
  intro e he
  have hall : r.papers.all wfPaper = true := hwf
  have hent : (analyze_professor_topics r rels).entities =
      profEntityOf r.professor_info (aggStateOf r.papers).topic_papers.length ::
        ((aggStateOf r.papers).domains.filterMap
            (levelEntity "domain" TopicObj.domain r.papers) ++
          (aggStateOf r.papers).fields.filterMap
            (levelEntity "field" TopicObj.field r.papers) ++
          (aggStateOf r.papers).subfields.filterMap
            (levelEntity "subfield" TopicObj.subfield r.papers) ++
          (aggStateOf r.papers).topics.map
            (topicEntityOf (aggStateOf r.papers))) := rfl
  rw [hent] at he
  rcases List.mem_cons.1 he with rfl | hb
  · refine ⟨fun h => ?_, fun h => ?_, fun h => ?_, fun h => ?_⟩ <;>
      simp [profEntityOf] at h
  · rcases List.mem_append.1 hb with hb3 | htop
    · rcases List.mem_append.1 hb3 with hb2 | hsub
      · rcases List.mem_append.1 hb2 with hdom | hfld
        · obtain ⟨hty, hpr⟩ := mem_levelEntity_block _ _ _ _ _ hdom
          refine ⟨fun _ => ⟨by rw [hpr]; rfl,
              wf_bucketLevel_eq_rescan _ (fun pt => Or.inr (Or.inr rfl)) _ _ hall⟩,
            fun h => ?_, fun h => ?_, fun h => ?_⟩ <;>
            · rw [hty] at h
              exact absurd h (by decide)
        · obtain ⟨hty, hpr⟩ := mem_levelEntity_block _ _ _ _ _ hfld
          refine ⟨fun h => ?_, fun _ => ⟨by rw [hpr]; rfl,
              wf_bucketLevel_eq_rescan _ (fun pt => Or.inr (Or.inl rfl)) _ _ hall⟩,
            fun h => ?_, fun h => ?_⟩ <;>
            · rw [hty] at h
              exact absurd h (by decide)
      · obtain ⟨hty, hpr⟩ := mem_levelEntity_block _ _ _ _ _ hsub
        refine ⟨fun h => ?_, fun h => ?_, fun _ => ⟨by rw [hpr]; rfl,
            wf_bucketLevel_eq_rescan _ (fun pt => Or.inl rfl) _ _ hall⟩,
          fun h => ?_⟩ <;>
          · rw [hty] at h
            exact absurd h (by decide)
    · obtain ⟨hty, hpr⟩ := mem_topic_block _ _ _ htop
      refine ⟨fun h => ?_, fun h => ?_, fun h => ?_, fun _ => ⟨?_, ?_⟩⟩
      · rw [hty] at h
        exact absurd h (by decide)
      · rw [hty] at h
        exact absurd h (by decide)
      · rw [hty] at h
        exact absurd h (by decide)
      · rw [hpr]
        rw [show statsLookup (aggStateOf r.papers).topic_stats e.id =
          bucketTopicCount e.id r.papers from statsLookup_aggState r.papers e.id]
        rfl
      · exact wf_bucketTopic_eq_specRescan _ _ hall

/-- Witness for C1: the domain entity D1 emitted for the concrete
well-formed record `r2`. -/
theorem C1_redundant_paper_counts_witness : C1Prop r2 entD1 :=
  C1_redundant_paper_counts r2 none (by decide) entD1 (by decide)

theorem paperTopicEntryO_inv (p : PaperObj) (pt : TopicObj) (k tn : String)
    (h : paperTopicEntryO p = some (pt, k, tn)) :
    isDictObj p.primary_topic = some pt ∧ pt.id = some k := by
  unfold paperTopicEntryO at h
  cases hpt : isDictObj p.primary_topic with
  | none => simp [hpt] at h
  | some pt0 =>
    simp only [hpt] at h
    cases hid : pt0.id with
    | none => simp [hid] at h
    | some tid =>
      cases hnm : pt0.display_name with
      | none => simp [hid, hnm] at h
      | some tname =>
        simp only [hid, hnm] at h
        by_cases hc : tid = "" ∨ tname = ""
        · simp [hc] at h
        · rw [if_neg hc, Option.some.injEq] at h
          simp only [Prod.mk.injEq] at h
          obtain ⟨h1, h2, h3⟩ := h
          subst h1
          rw [h2] at hid
          exact ⟨rfl, hid⟩

theorem bucketAdd_keys (tp : List (String × List PaperInfo)) (k : String)
    (v : PaperInfo) :
    (bucketAdd tp k v).map Prod.fst =
      if k ∈ tp.map Prod.fst then tp.map Prod.fst
      else tp.map Prod.fst ++ [k] := by
  induction tp with
  | nil => simp [bucketAdd]
  | cons kv rest ih =>
    obtain ⟨k', l⟩ := kv
    by_cases h : k' = k
    · subst h
      simp [bucketAdd]
    · have hne : ¬ (k = k') := fun hk => h hk.symm
      simp only [bucketAdd, if_neg h, List.map_cons, List.mem_cons, ih]
      by_cases hm : k ∈ rest.map Prod.fst
      · simp [hm, hne]
      · simp [hm, hne]

theorem aggState_keys_witness (l : List PaperV) (st : AggState) :
    ∀ k ∈ ((l.foldl processPaper st).topic_papers).map Prod.fst,
      k ∈ st.topic_papers.map Prod.fst ∨
        ∃ pv ∈ l, (topicDetailOf k pv).isSome = true := by
  induction l generalizing st with
  | nil => simp
  | cons pv rest ih =>
    intro k hk
    rcases ih (processPaper st pv) k hk with hin | ⟨pw, hpw, hdet⟩
    · cases hpv : pv with
      | null => rw [hpv] at hin; exact Or.inl hin
      | nonDict => rw [hpv] at hin; exact Or.inl hin
      | obj p =>
        cases he : paperTopicEntryO p with
        | none =>
          rw [hpv] at hin
          simp only [processPaper, he] at hin
          exact Or.inl hin
        | some e =>
          obtain ⟨pt, k0, tn⟩ := e
          rw [hpv] at hin
          simp only [processPaper, he] at hin
          rw [bucketAdd_keys] at hin
          by_cases hm : k0 ∈ st.topic_papers.map Prod.fst
          · rw [if_pos hm] at hin
            exact Or.inl hin
          · rw [if_neg hm] at hin
            rcases List.mem_append.1 hin with hold | hnew
            · exact Or.inl hold
            · have hk0 : k = k0 := by simpa using hnew
              subst hk0
              obtain ⟨hpt, hid⟩ := paperTopicEntryO_inv p pt k tn he
              refine Or.inr ⟨PaperV.obj p, by simp [hpv], ?_⟩
              simp [topicDetailOf, hpt, hid]
    · exact Or.inr ⟨pw, List.mem_cons_of_mem pv hpw, hdet⟩

theorem findSome?_isSome_of_mem {α β : Type} (f : α → Option β) (l : List α)
    (x : α) (hx : x ∈ l) (h : (f x).isSome = true) :
    (l.findSome? f).isSome = true := by
  induction l with
  | nil => cases hx
  | cons a as ih =>
    cases hfa : f a with
    | some b => simp [List.findSome?_cons, hfa]
    | none =>
      rcases List.mem_cons.1 hx with rfl | hxs
      · rw [hfa] at h; cases h
      · simpa [List.findSome?_cons, hfa] using ih hxs

theorem length_filterMap_of_isSome {α β : Type} (f : α → Option β) (l : List α)
    (h : ∀ x ∈ l, (f x).isSome = true) : (l.filterMap f).length = l.length := by
  induction l with
  | nil => rfl
  | cons a as ih =>
    have ha := h a (List.mem_cons_self a as)
    cases hfa : f a with
    | none => rw [hfa] at ha; cases ha
    | some b =>
      simp only [List.filterMap_cons, hfa, List.length_cons]
      rw [ih fun x hx => h x (List.mem_cons_of_mem a hx)]

/-- C9: `total_topics` always equals the number of `topics_with_papers`
entries: the representative-paper rescan succeeds for every bucket. -/
theorem C9_total_topics_eq_entries (r : ProfRecord) (rels : Option (List CsRel)) :
    (analyze_professor_topics r rels).total_topics =
      (analyze_professor_topics r rels).topics_with_papers.length := by
  show (aggStateOf r.papers).topic_papers.length = (analysisEntries r.papers).length
  unfold analysisEntries
  rw [length_filterMap_of_isSome]
  intro kv hkv
  have hkey : kv.1 ∈ (aggStateOf r.papers).topic_papers.map Prod.fst :=
    List.mem_map_of_mem Prod.fst hkv
  rcases aggState_keys_witness r.papers initAgg kv.1 hkey with h0 | ⟨pv, hpv, hdet⟩
  · simp [initAgg] at h0
  · have hfs := findSome?_isSome_of_mem (topicDetailOf kv.1) r.papers pv hpv hdet
    unfold topicEntryFor findTopicDetail
    cases hfd : r.papers.findSome? (topicDetailOf kv.1) with
    | none => rw [hfd] at hfs; cases hfs
    | some td => simp

theorem bucketAdd_values_nonempty (k : String) (v : PaperInfo) :
    ∀ tp : List (String × List PaperInfo), (∀ kv ∈ tp, kv.2 ≠ []) →
      ∀ kv ∈ bucketAdd tp k v, kv.2 ≠ [] := by
  intro tp
  induction tp with
  | nil =>
    intro _ kv hkv
    simp only [bucketAdd, List.mem_singleton] at hkv
    subst hkv
    simp
  | cons kv0 rest ih =>
    obtain ⟨k', l⟩ := kv0
    intro h kv hkv
    by_cases hk : k' = k
    · simp only [bucketAdd, if_pos hk, List.mem_cons] at hkv
      rcases hkv with rfl | hkv
      · simp
      · exact h kv (List.mem_cons_of_mem _ hkv)
    · simp only [bucketAdd, if_neg hk, List.mem_cons] at hkv
      rcases hkv with rfl | hkv
      · exact h _ (List.mem_cons_self _ _)
      · exact ih (fun x hx => h x (List.mem_cons_of_mem _ hx)) kv hkv

theorem aggState_values_nonempty (l : List PaperV) :
    ∀ st : AggState, (∀ kv ∈ st.topic_papers, kv.2 ≠ []) →
      ∀ kv ∈ (l.foldl processPaper st).topic_papers, kv.2 ≠ [] := by
  induction l with
  | nil => intro st h; exact h
  | cons pv rest ih =>
    intro st h
    refine ih (processPaper st pv) ?_
    cases pv with
    | null => exact h
    | nonDict => exact h
    | obj p =>
      cases he : paperTopicEntryO p with
      | none => simpa [processPaper, he] using h
      | some e =>
        obtain ⟨pt, tid, tn⟩ := e
        simp only [processPaper, he]
        exact bucketAdd_values_nonempty _ _ _ h

/-- C5: every `topics_with_papers` entry carries a nonempty bucket whose
`avg_citations` is the exact arithmetic mean of its papers' citation counts
(missing counts read as 0 when the bucket entries were built), the
empty-bucket branch yields 0 rather than dividing by zero, and on the
concrete record `r2` the size-1 bucket with `cited_by_count = 7` reports
`avg_citations = 7`. -/
theorem C5_avg_citations_mean :
    (∀ r rels, ∀ e ∈ (analyze_professor_topics r rels).topics_with_papers,
      e.papers ≠ [] ∧
        e.avg_citations =
          (((e.papers.map PaperInfo.cited_by_count).sum : ℤ) : ℚ) /
            (e.papers.length : ℚ)) ∧
    avgCitations [] = 0 ∧
    (analyze_professor_topics r2 none).topics_with_papers.map
        TopicEntry.paper_count = [1, 1] ∧
    (analyze_professor_topics r2 none).topics_with_papers.map
        TopicEntry.avg_citations = [7, 0] := by
  refine ⟨?_, by simp [avgCitations], by decide, ?_⟩
  · intro r rels e he
    have he' : e ∈ (aggStateOf r.papers).topic_papers.filterMap
        (topicEntryFor r.papers) := he
    rcases List.mem_filterMap.1 he' with ⟨kv, hkv, hfe⟩
    have hne : kv.2 ≠ [] :=
      aggState_values_nonempty r.papers initAgg (by simp [initAgg]) kv hkv
    unfold topicEntryFor at hfe
    cases hfd : findTopicDetail r.papers kv.1 with
    | none => rw [hfd] at hfe; exact absurd hfe (by simp)
    | some td =>
      rw [hfd, Option.some.injEq] at hfe
      subst hfe
      exact ⟨hne, by simp [avgCitations, hne]⟩
  · have h : (analyze_professor_topics r2 none).topics_with_papers.map
        TopicEntry.avg_citations =
        [avgCitations
            [{ id := some "W1", title := some "t1", publication_date := none,
               doi := none, cited_by_count := 7, primary_topic_score := 3 }],
          avgCitations
            [{ id := some "W2", title := some "t2", publication_date := none,
               doi := none, cited_by_count := 0, primary_topic_score := 0 }]] := rfl
    rw [h]
    simp [avgCitations]

theorem filter_professor_blocks (r : ProfRecord)
    (ds fs ss ts : List (String × String)) (st : AggState) :
    List.filter (fun e => decide (e.etype = "professor"))
      (ds.filterMap (levelEntity "domain" TopicObj.domain r.papers) ++
        fs.filterMap (levelEntity "field" TopicObj.field r.papers) ++
        ss.filterMap (levelEntity "subfield" TopicObj.subfield r.papers) ++
        ts.map (topicEntityOf st)) = [] := by
  rw [List.filter_eq_nil_iff]
  intro e he
  rcases List.mem_append.1 he with h3 | htop
  · rcases List.mem_append.1 h3 with h2 | hs
    · rcases List.mem_append.1 h2 with hd | hf
      · obtain ⟨hty, _⟩ := mem_levelEntity_block _ _ _ _ _ hd
        simp [hty]
      · obtain ⟨hty, _⟩ := mem_levelEntity_block _ _ _ _ _ hf
        simp [hty]
    · obtain ⟨hty, _⟩ := mem_levelEntity_block _ _ _ _ _ hs
      simp [hty]
  · obtain ⟨hty, _⟩ := mem_topic_block _ _ _ htop
    simp [hty]

/-- C10: every aggregation emits exactly one professor entity, it heads the
entity list with id `"professor_" ++ author_id` (the f-string rendering of a
missing id being the empty default), and it is present even for an empty
papers list. -/
theorem C10_professor_entity_first :
    (∀ r rels,
      ((analyze_professor_topics r rels).entities.filter
          (fun e => decide (e.etype = "professor"))).length = 1 ∧
      (analyze_professor_topics r rels).entities.head?.map AEntity.etype =
        some "professor" ∧
      (analyze_professor_topics r rels).entities.head?.map AEntity.id =
        some ("professor_" ++ r.professor_info.author_id.fmtDefaultEmpty)) ∧
    (analyze_professor_topics
        (ProfRecord.mk (ProfInfo.mk StrV.missing none none none) [])
        none).entities.map AEntity.id = ["professor_"] := by
  refine ⟨?_, by decide⟩
  intro r rels
  refine ⟨?_, rfl, rfl⟩
  have hent : (analyze_professor_topics r rels).entities =
      profEntityOf r.professor_info (aggStateOf r.papers).topic_papers.length ::
        ((aggStateOf r.papers).domains.filterMap
            (levelEntity "domain" TopicObj.domain r.papers) ++
          (aggStateOf r.papers).fields.filterMap
            (levelEntity "field" TopicObj.field r.papers) ++
          (aggStateOf r.papers).subfields.filterMap
            (levelEntity "subfield" TopicObj.subfield r.papers) ++
          (aggStateOf r.papers).topics.map
            (topicEntityOf (aggStateOf r.papers))) := rfl
  rw [hent, List.filter_cons]
  rw [filter_professor_blocks r _ _ _ _ _]
  simp [profEntityOf]

theorem processPaper_skip (st : AggState) (p : PaperObj)
    (h : isDictObj p.primary_topic = none) :
    processPaper st (PaperV.obj p) = st := by
  simp [processPaper, paperTopicEntryO, h]

theorem aggStateOf_skip (l₁ l₂ : List PaperV) (p : PaperObj)
    (h : isDictObj p.primary_topic = none) :
    aggStateOf (l₁ ++ PaperV.obj p :: l₂) = aggStateOf (l₁ ++ l₂) := by
  unfold aggStateOf
  rw [List.foldl_append, List.foldl_append, List.foldl_cons,
    processPaper_skip _ _ h]

theorem findSome?_middle_none {α β : Type} (f : α → Option β) (l₁ l₂ : List α)
    (x : α) (h : f x = none) :
    (l₁ ++ x :: l₂).findSome? f = (l₁ ++ l₂).findSome? f := by
  induction l₁ with
  | nil => simp [List.findSome?_cons, h]
  | cons a as ih =>
    cases hfa : f a with
    | some b => simp [List.findSome?_cons, hfa]
    | none => simp [List.findSome?_cons, hfa, ih]

theorem rescanCount_skip (sel : TopicObj → DictV SubObj) (eid : String)
    (l₁ l₂ : List PaperV) (p : PaperObj)
    (h : isDictObj p.primary_topic = none) :
    rescanCount sel eid (l₁ ++ PaperV.obj p :: l₂) =
      rescanCount sel eid (l₁ ++ l₂) := by
  unfold rescanCount
  have hp : rescanPred sel eid (PaperV.obj p) = false := by
    simp [rescanPred, h]
  simp [List.countP_append, List.countP_cons, hp]

/-- C4: a mapping paper whose `primary_topic` is missing, null, a
non-mapping or the empty mapping is counted in `total_papers_analyzed`
(the length of the papers list) and contributes nothing else: dropping it
leaves the aggregation state, the report entries, the entities and all
relations (in particular every `works_on` edge) unchanged. -/
theorem C4_no_topic_excluded (pinf : ProfInfo) (l₁ l₂ : List PaperV)
    (p : PaperObj) (rels : Option (List CsRel))
    (h : isDictObj p.primary_topic = none) :
    C4Prop pinf l₁ l₂ (PaperV.obj p) rels := by
  have hagg := aggStateOf_skip l₁ l₂ p h
  have hentries : analysisEntries (l₁ ++ PaperV.obj p :: l₂) =
      analysisEntries (l₁ ++ l₂) := by
    unfold analysisEntries
    rw [hagg]
    apply List.filterMap_congr
    intro kv _
    unfold topicEntryFor findTopicDetail
    rw [findSome?_middle_none _ _ _ _ (by simp [topicDetailOf, h])]
  have hb : ∀ (ty : String) (sel : TopicObj → DictV SubObj)
      (lst : List (String × String)),
      lst.filterMap (levelEntity ty sel (l₁ ++ PaperV.obj p :: l₂)) =
        lst.filterMap (levelEntity ty sel (l₁ ++ l₂)) := by
    intro ty sel lst
    apply List.filterMap_congr
    intro dn _
    unfold levelEntity
    rw [rescanCount_skip sel dn.1 l₁ l₂ p h]
  have hentities :
      (analyze_professor_topics (ProfRecord.mk pinf (l₁ ++ PaperV.obj p :: l₂))
          rels).entities =
        (analyze_professor_topics (ProfRecord.mk pinf (l₁ ++ l₂)) rels).entities := by
    have e1 : (analyze_professor_topics (ProfRecord.mk pinf (l₁ ++ PaperV.obj p :: l₂))
        rels).entities =
        profEntityOf pinf (aggStateOf (l₁ ++ PaperV.obj p :: l₂)).topic_papers.length ::
          ((aggStateOf (l₁ ++ PaperV.obj p :: l₂)).domains.filterMap
              (levelEntity "domain" TopicObj.domain (l₁ ++ PaperV.obj p :: l₂)) ++
            (aggStateOf (l₁ ++ PaperV.obj p :: l₂)).fields.filterMap
              (levelEntity "field" TopicObj.field (l₁ ++ PaperV.obj p :: l₂)) ++
            (aggStateOf (l₁ ++ PaperV.obj p :: l₂)).subfields.filterMap
              (levelEntity "subfield" TopicObj.subfield (l₁ ++ PaperV.obj p :: l₂)) ++
            (aggStateOf (l₁ ++ PaperV.obj p :: l₂)).topics.map
              (topicEntityOf (aggStateOf (l₁ ++ PaperV.obj p :: l₂)))) := rfl
    have e2 : (analyze_professor_topics (ProfRecord.mk pinf (l₁ ++ l₂))
        rels).entities =
        profEntityOf pinf (aggStateOf (l₁ ++ l₂)).topic_papers.length ::
          ((aggStateOf (l₁ ++ l₂)).domains.filterMap
              (levelEntity "domain" TopicObj.domain (l₁ ++ l₂)) ++
            (aggStateOf (l₁ ++ l₂)).fields.filterMap
              (levelEntity "field" TopicObj.field (l₁ ++ l₂)) ++
            (aggStateOf (l₁ ++ l₂)).subfields.filterMap
              (levelEntity "subfield" TopicObj.subfield (l₁ ++ l₂)) ++
            (aggStateOf (l₁ ++ l₂)).topics.map
              (topicEntityOf (aggStateOf (l₁ ++ l₂)))) := rfl
    rw [e1, e2, hagg, hb, hb, hb]
  refine ⟨rfl, ?_, hagg, hentries, hentities, ?_⟩
  · show (l₁ ++ PaperV.obj p :: l₂).length = (l₁ ++ l₂).length + 1
    simp [List.length_append]
    omega
  · show worksOnRels
        (profEntityOf pinf (aggStateOf (l₁ ++ PaperV.obj p :: l₂)).topic_papers.length).id
        (aggStateOf (l₁ ++ PaperV.obj p :: l₂)) ++
      hierRels ((analyze_professor_topics
          (ProfRecord.mk pinf (l₁ ++ PaperV.obj p :: l₂)) rels).entities.map
        AEntity.id) rels =
      worksOnRels
        (profEntityOf pinf (aggStateOf (l₁ ++ l₂)).topic_papers.length).id
        (aggStateOf (l₁ ++ l₂)) ++
      hierRels ((analyze_professor_topics
          (ProfRecord.mk pinf (l₁ ++ l₂)) rels).entities.map AEntity.id) rels
    rw [hagg, hentities]

/-- Witness for C4: the empty-mapping `primary_topic` paper `papBad`
appended after `pap1`. -/
theorem C4_no_topic_excluded_witness :
    C4Prop pinfW [pap1] [] (PaperV.obj papBad) none :=
  C4_no_topic_excluded pinfW [pap1] [] papBad none rfl

theorem hierRels_congr (ids₁ ids₂ : List String)
    (h : ∀ x, x ∈ ids₁ ↔ x ∈ ids₂) (rels : Option (List CsRel)) :
    hierRels ids₁ rels = hierRels ids₂ rels := by
  cases rels with
  | none => rfl
  | some lst =>
    simp only [hierRels]
    apply List.filterMap_congr
    intro cr _
    cases cr.parent_id with
    | none => rfl
    | some pid =>
      cases cr.child_id with
      | none => rfl
      | some cid => simp [h]

theorem analyzeOrd_entities_perm
    (σ₁ σ₂ : List (String × String) → List (String × String))
    (r : ProfRecord) (rels : Option (List CsRel))
    (h₁ : ∀ l, (σ₁ l).Perm l) (h₂ : ∀ l, (σ₂ l).Perm l) :
    (analyzeOrd σ₁ r rels).entities.Perm ((analyzeOrd σ₂ r rels).entities) :=
  List.Perm.cons _
    (((((((h₁ _).trans (h₂ _).symm).filterMap _).append
            (((h₁ _).trans (h₂ _).symm).filterMap _)).append
          (((h₁ _).trans (h₂ _).symm).filterMap _)).append
        (((h₁ _).trans (h₂ _).symm).map _)))

theorem analyzeOrd_relations_eq
    (σ₁ σ₂ : List (String × String) → List (String × String))
    (r : ProfRecord) (rels : Option (List CsRel))
    (h₁ : ∀ l, (σ₁ l).Perm l) (h₂ : ∀ l, (σ₂ l).Perm l) :
    (analyzeOrd σ₁ r rels).relations = (analyzeOrd σ₂ r rels).relations := by
  have hperm := analyzeOrd_entities_perm σ₁ σ₂ r rels h₁ h₂
  have hids : ∀ x, x ∈ (analyzeOrd σ₁ r rels).entities.map AEntity.id ↔
      x ∈ (analyzeOrd σ₂ r rels).entities.map AEntity.id :=
    fun x => (hperm.map AEntity.id).mem_iff
  show worksOnRels
      (profEntityOf r.professor_info (aggStateOf r.papers).topic_papers.length).id
      (aggStateOf r.papers) ++
    hierRels ((analyzeOrd σ₁ r rels).entities.map AEntity.id) rels =
    worksOnRels
      (profEntityOf r.professor_info (aggStateOf r.papers).topic_papers.length).id
      (aggStateOf r.papers) ++
    hierRels ((analyzeOrd σ₂ r rels).entities.map AEntity.id) rels
  rw [hierRels_congr _ _ hids rels]

/-- C3 (amended): the aggregator is a function of its input and the
iteration order CPython uses for the four internal dedup sets; for any two
permutation orders the analysis report, the `works_on` edges and the pruned
hierarchy edges are byte-identical, and the entity list is identical up to
the order inside the four type blocks. Byte-identical output including
entity order is only guaranteed once the set iteration order is fixed. -/
theorem C3_order_determinism
    (r : ProfRecord) (rels : Option (List CsRel))
    (σ₁ σ₂ : List (String × String) → List (String × String))
    (h₁ : ∀ l, (σ₁ l).Perm l) (h₂ : ∀ l, (σ₂ l).Perm l) :
    C3Prop σ₁ σ₂ r rels :=
  ⟨rfl, rfl, rfl, rfl, analyzeOrd_entities_perm σ₁ σ₂ r rels h₁ h₂,
    analyzeOrd_relations_eq σ₁ σ₂ r rels h₁ h₂⟩

/-- Witness for C3 (amended): the identity order against the reversed
order on the concrete two-domain record `r2`. -/
theorem C3_order_determinism_witness : C3Prop id List.reverse r2 none :=
  C3_order_determinism r2 none id List.reverse
    (fun l => List.Perm.refl l) (fun l => List.reverse_perm l)

/-- Counterexample for C3 as stated: with the reversed set iteration order
(a permutation CPython's per-process hash randomization can produce on a
second run) the emitted entity list of the same record differs, so the
output is not byte-identical across runs. -/
theorem C3_order_determinism_counterexample :
    (analyzeOrd id r2 none).entities ≠ (analyzeOrd List.reverse r2 none).entities := by
  decide

theorem nonTopicIds_append_entity (st : ExtState) (e : EEntity) (sn : List String) :
    nonTopicIds { st with entities := st.entities ++ [e], seen := sn } =
      nonTopicIds st ++ (if e.etype ≠ "topic" then [e.id] else []) := by
  by_cases h : e.etype = "topic" <;>
    simp [nonTopicIds, List.filter_append, h]

theorem relPairsOfType_append (ty : String) (rels : List ERel) (rl : ERel) :
    relPairsOfType ty (rels ++ [rl]) =
      relPairsOfType ty rels ++
        (if rl.relationship_type = ty then [(rl.parent_id, rl.child_id)] else []) := by
  by_cases h : rl.relationship_type = ty <;>
    simp [relPairsOfType, List.filter_append, h]

theorem extInv_addEntity (st : ExtState) (e : EEntity)
    (hfresh : e.id ∉ st.seen) (inv : extSeenInv st) :
    extSeenInv
      { st with entities := st.entities ++ [e], seen := st.seen ++ [e.id] } := by
  obtain ⟨A, B, C, D, E, F⟩ := inv
  refine ⟨?_, ?_, C, fun pr hpr => List.mem_append_left _ (D pr hpr), E,
    fun pr hpr => List.mem_append_left _ (F pr hpr)⟩
  · rw [nonTopicIds_append_entity]
    by_cases ht : e.etype = "topic"
    · simpa [ht] using A
    · rw [if_pos ht, List.nodup_append]
      refine ⟨A, List.nodup_singleton _, ?_⟩
      intro a ha hb
      rw [List.mem_singleton] at hb
      subst hb
      exact hfresh (B _ ha)
  · intro i hi
    rw [nonTopicIds_append_entity] at hi
    rcases List.mem_append.1 hi with h1 | h2
    · exact List.mem_append_left _ (B i h1)
    · by_cases ht : e.etype = "topic"
      · rw [if_neg (by simpa using ht)] at h2
        cases h2
      · rw [if_pos ht] at h2
        rw [List.mem_singleton] at h2
        subst h2
        exact List.mem_append_right _ (List.mem_singleton.2 rfl)

theorem extInv_addEntityRel (st : ExtState) (e : EEntity) (rl : ERel)
    (hfresh : e.id ∉ st.seen) (hchild : rl.child_id = e.id)
    (hty : rl.relationship_type = "domain_to_field" ∨
      rl.relationship_type = "field_to_subfield")
    (inv : extSeenInv st) :
    extSeenInv
      { entities := st.entities ++ [e],
        relationships := st.relationships ++ [rl],
        seen := st.seen ++ [e.id] } := by
  have base := extInv_addEntity st e hfresh inv
  obtain ⟨A', B', _, _, _, _⟩ := base
  obtain ⟨A, B, C, D, E, F⟩ := inv
  have hpair : ∀ ty, (relPairsOfType ty st.relationships).Nodup →
      (∀ pr ∈ relPairsOfType ty st.relationships, pr.2 ∈ st.seen) →
      ((relPairsOfType ty st.relationships ++ [(rl.parent_id, rl.child_id)]).Nodup ∧
        ∀ pr ∈ relPairsOfType ty st.relationships ++ [(rl.parent_id, rl.child_id)],
          pr.2 ∈ st.seen ++ [e.id]) := by
    intro ty hN hS
    constructor
    · rw [List.nodup_append]
      refine ⟨hN, List.nodup_singleton _, ?_⟩
      intro a ha hb
      rw [List.mem_singleton] at hb
      subst hb
      exact hfresh (hchild ▸ hS _ ha)
    · intro pr hpr
      rcases List.mem_append.1 hpr with h1 | h2
      · exact List.mem_append_left _ (hS pr h1)
      · rw [List.mem_singleton] at h2
        subst h2
        exact List.mem_append_right _ (by simp [hchild])
  rcases hty with hd | hf
  · have hp := hpair "domain_to_field" C D
    refine ⟨?_, ?_, ?_, ?_, ?_, ?_⟩
    · simpa [nonTopicIds] using A'
    · intro i hi
      exact B' i (by simpa [nonTopicIds] using hi)
    · rw [relPairsOfType_append, if_pos hd]
      exact hp.1
    · intro pr hpr
      rw [relPairsOfType_append, if_pos hd] at hpr
      exact hp.2 pr hpr
    · rw [relPairsOfType_append,
        if_neg (by rw [hd]; decide)]
      simpa using E
    · intro pr hpr
      rw [relPairsOfType_append, if_neg (by rw [hd]; decide)] at hpr
      simp only [List.append_nil] at hpr
      exact List.mem_append_left _ (F pr hpr)
  · have hp := hpair "field_to_subfield" E F
    refine ⟨?_, ?_, ?_, ?_, ?_, ?_⟩
    · simpa [nonTopicIds] using A'
    · intro i hi
      exact B' i (by simpa [nonTopicIds] using hi)
    · rw [relPairsOfType_append, if_neg (by rw [hf]; decide)]
      simpa using C
    · intro pr hpr
      rw [relPairsOfType_append, if_neg (by rw [hf]; decide)] at hpr
      simp only [List.append_nil] at hpr
      exact List.mem_append_left _ (D pr hpr)
    · rw [relPairsOfType_append, if_pos hf]
      exact hp.1
    · intro pr hpr
      rw [relPairsOfType_append, if_pos hf] at hpr
      exact hp.2 pr hpr

theorem extInv_stepDomain (lvl : HLevel) (dId dn di : String) (st : ExtState)
    (inv : extSeenInv st) : extSeenInv (stepDomain lvl dId dn di st) := by
  unfold stepDomain
  split
  · next h => exact extInv_addEntity st _ h.2 inv
  · exact inv

theorem extInv_stepField (lvl : HLevel) (dId dn fId fn fi : String)
    (st : ExtState) (inv : extSeenInv st) :
    extSeenInv (stepField lvl dId dn fId fn fi st) := by
  unfold stepField
  split
  · next h =>
    split
    · exact extInv_addEntityRel st _ _ h.2 rfl (Or.inl rfl) inv
    · exact extInv_addEntity st _ h.2 inv
  · exact inv

theorem extInv_stepSubfield (lvl : HLevel) (fId fn sId sn si : String)
    (st : ExtState) (inv : extSeenInv st) :
    extSeenInv (stepSubfield lvl fId fn sId sn si st) := by
  unfold stepSubfield
  split
  · next h =>
    split
    · exact extInv_addEntityRel st _ _ h rfl (Or.inr rfl) inv
    · exact extInv_addEntity st _ h inv
  · exact inv

theorem extInv_stepTopic (sId sn tId tn ti kw summ lnk : String)
    (st : ExtState) (inv : extSeenInv st) :
    extSeenInv (stepTopic sId sn tId tn ti kw summ lnk st) := by
  obtain ⟨A, B, C, D, E, F⟩ := inv
  have hids : nonTopicIds (stepTopic sId sn tId tn ti kw summ lnk st) =
      nonTopicIds st := by
    simp [stepTopic, nonTopicIds, List.filter_append]
  have hd2f : relPairsOfType "domain_to_field"
      (stepTopic sId sn tId tn ti kw summ lnk st).relationships =
      relPairsOfType "domain_to_field" st.relationships := by
    simp [stepTopic, relPairsOfType, List.filter_append]
  have hf2s : relPairsOfType "field_to_subfield"
      (stepTopic sId sn tId tn ti kw summ lnk st).relationships =
      relPairsOfType "field_to_subfield" st.relationships := by
    simp [stepTopic, relPairsOfType, List.filter_append]
  have hseen : (stepTopic sId sn tId tn ti kw summ lnk st).seen = st.seen := rfl
  refine ⟨?_, ?_, ?_, ?_, ?_, ?_⟩
  · rw [hids]; exact A
  · intro i hi
    rw [hids] at hi
    rw [hseen]
    exact B i hi
  · rw [hd2f]; exact C
  · intro pr hpr
    rw [hd2f] at hpr
    rw [hseen]
    exact D pr hpr
  · rw [hf2s]; exact E
  · intro pr hpr
    rw [hf2s] at hpr
    rw [hseen]
    exact F pr hpr

theorem extInv_processRow (lvl : HLevel) (target : String) (st : ExtState)
    (row : List String) (inv : extSeenInv st) :
    extSeenInv (processRow lvl target st row) := by
  unfold processRow
  split
  · exact inv
  · split
    · exact extInv_stepTopic _ _ _ _ _ _ _ _ _
        (extInv_stepSubfield _ _ _ _ _ _ _
          (extInv_stepField _ _ _ _ _ _ _
            (extInv_stepDomain _ _ _ _ _ inv)))
    · exact inv

theorem extInv_initExt : extSeenInv initExt := by
  refine ⟨?_, ?_, ?_, ?_, ?_, ?_⟩ <;>
    simp [initExt, nonTopicIds, relPairsOfType]

theorem extInv_fold (lvl : HLevel) (target : String)
    (table : List (List String)) :
    ∀ st : ExtState, extSeenInv st →
      extSeenInv (table.foldl (processRow lvl target) st) := by
  induction table with
  | nil => intro st inv; exact inv
  | cons row rest ih =>
    intro st inv
    exact ih _ (extInv_processRow _ _ _ _ inv)

theorem extract_nonTopic_nodup (table : List (List String)) (target : String) :
    (((extract_hierarchy table target).1.filter
      (fun e => decide (e.etype ≠ "topic"))).map EEntity.id).Nodup := by
  unfold extract_hierarchy
  cases findLevel table target with
  | none => simp
  | some lvl => exact (extInv_fold lvl target table initExt extInv_initExt).1

theorem extract_relPairs_d2f_nodup (table : List (List String)) (target : String) :
    (relPairsOfType "domain_to_field" (extract_hierarchy table target).2).Nodup := by
  unfold extract_hierarchy
  cases findLevel table target with
  | none => simp [relPairsOfType]
  | some lvl => exact (extInv_fold lvl target table initExt extInv_initExt).2.2.1

theorem extract_relPairs_f2s_nodup (table : List (List String)) (target : String) :
    (relPairsOfType "field_to_subfield" (extract_hierarchy table target).2).Nodup := by
  unfold extract_hierarchy
  cases findLevel table target with
  | none => simp [relPairsOfType]
  | some lvl =>
    exact (extInv_fold lvl target table initExt extInv_initExt).2.2.2.2.1

theorem insertPair_nodup (s : List (String × String)) (pr : String × String)
    (h : s.Nodup) : (insertPair s pr).Nodup := by
  unfold insertPair
  split
  · exact h
  · next hmem =>
    rw [List.nodup_append]
    refine ⟨h, List.nodup_singleton _, ?_⟩
    intro a ha hb
    rw [List.mem_singleton] at hb
    subst hb
    exact hmem ha

theorem addSub_nodup (sel : TopicObj → DictV SubObj)
    (s : List (String × String)) (pt : TopicObj) (h : s.Nodup) :
    (addSub sel s pt).Nodup := by
  cases hv : validSubPair sel pt with
  | none => simpa [addSub, hv] using h
  | some pr => simpa [addSub, hv] using insertPair_nodup s pr h

theorem aggSets_nodup (l : List PaperV) :
    ∀ st : AggState, st.domains.Nodup → st.fields.Nodup →
      st.subfields.Nodup → st.topics.Nodup →
      (l.foldl processPaper st).domains.Nodup ∧
        (l.foldl processPaper st).fields.Nodup ∧
        (l.foldl processPaper st).subfields.Nodup ∧
        (l.foldl processPaper st).topics.Nodup := by
  induction l with
  | nil =>
    intro st h1 h2 h3 h4
    exact ⟨h1, h2, h3, h4⟩
  | cons pv rest ih =>
    intro st h1 h2 h3 h4
    have hstep : (processPaper st pv).domains.Nodup ∧
        (processPaper st pv).fields.Nodup ∧
        (processPaper st pv).subfields.Nodup ∧
        (processPaper st pv).topics.Nodup := by
      cases pv with
      | null => exact ⟨h1, h2, h3, h4⟩
      | nonDict => exact ⟨h1, h2, h3, h4⟩
      | obj p =>
        cases he : paperTopicEntryO p with
        | none =>
          simp only [processPaper, he]
          exact ⟨h1, h2, h3, h4⟩
        | some e =>
          obtain ⟨pt, tid, tn⟩ := e
          simp only [processPaper, he]
          exact ⟨addSub_nodup _ _ _ h1, addSub_nodup _ _ _ h2,
            addSub_nodup _ _ _ h3, insertPair_nodup _ _ h4⟩
    exact ih _ hstep.1 hstep.2.1 hstep.2.2.1 hstep.2.2.2

theorem levelEntity_block_keys (ty : String) (sel : TopicObj → DictV SubObj)
    (papers : List PaperV) (l : List (String × String)) :
    (l.filterMap (levelEntity ty sel papers)).map entityKey =
      (l.filter (fun dn => decide (¬(dn.1 = "" ∨ dn.2 = "")))).map
        (fun dn => (dn.1, some dn.2)) := by
  induction l with
  | nil => rfl
  | cons dn rest ih =>
    by_cases hg : dn.1 = "" ∨ dn.2 = ""
    · rcases hg with h | h <;> simp [levelEntity, h, ih]
    · push_neg at hg
      simp [levelEntity, hg.1, hg.2, ih, entityKey]

theorem topic_block_keys (st : AggState) (l : List (String × String)) :
    (l.map (topicEntityOf st)).map entityKey =
      l.map (fun tn => (tn.1, some tn.2)) := by
  rw [List.map_map]
  rfl

theorem pair_some_injective :
    Function.Injective (fun dn : String × String => (dn.1, some dn.2)) := by
  intro a b h
  simp only [Prod.mk.injEq, Option.some.injEq] at h
  exact Prod.ext h.1 h.2

theorem block_keys_nodup_of_set_nodup (ty : String)
    (sel : TopicObj → DictV SubObj) (papers : List PaperV)
    (l : List (String × String)) (h : l.Nodup) :
    ((l.filterMap (levelEntity ty sel papers)).map entityKey).Nodup := by
  rw [levelEntity_block_keys]
  exact (h.filter _).map pair_some_injective

theorem filter_block_all (ty : String) (sel : TopicObj → DictV SubObj)
    (papers : List PaperV) (l : List (String × String)) :
    (l.filterMap (levelEntity ty sel papers)).filter
        (fun e => decide (e.etype = ty)) =
      l.filterMap (levelEntity ty sel papers) := by
  rw [List.filter_eq_self]
  intro e he
  obtain ⟨hty, _⟩ := mem_levelEntity_block _ _ _ _ _ he
  simp [hty]

theorem filter_block_none (ty ty' : String) (hne : ty' ≠ ty)
    (sel : TopicObj → DictV SubObj) (papers : List PaperV)
    (l : List (String × String)) :
    (l.filterMap (levelEntity ty' sel papers)).filter
        (fun e => decide (e.etype = ty)) = [] := by
  rw [List.filter_eq_nil_iff]
  intro e he
  obtain ⟨hty, _⟩ := mem_levelEntity_block _ _ _ _ _ he
  simp [hty, hne]

theorem filter_topic_block (ty : String) (st : AggState)
    (l : List (String × String)) :
    (l.map (topicEntityOf st)).filter (fun e => decide (e.etype = ty)) =
      (if "topic" = ty then l.map (topicEntityOf st) else []) := by
  by_cases h : "topic" = ty
  · rw [if_pos h, List.filter_eq_self]
    intro e he
    obtain ⟨hty, _⟩ := mem_topic_block _ _ _ he
    simp [hty, h.symm]
  · rw [if_neg h, List.filter_eq_nil_iff]
    intro e he
    obtain ⟨hty, _⟩ := mem_topic_block _ _ _ he
    simp [hty]
    intro hc
    exact h hc

/-- C2 (amended): within one aggregation run each entity-type block is
deduplicated by the (id, display_name) pair its dedup set keys on — not by
id alone, so two entities can share an id when their display names differ —
and within one extraction run the domain, field and subfield entities are
deduplicated by synthesized id while topic entities are emitted once per
qualifying row. -/
theorem C2_dedup_amended :
    (∀ r rels,
      (((analyze_professor_topics r rels).entities.filter
          (fun e => decide (e.etype = "domain"))).map entityKey).Nodup ∧
      (((analyze_professor_topics r rels).entities.filter
          (fun e => decide (e.etype = "field"))).map entityKey).Nodup ∧
      (((analyze_professor_topics r rels).entities.filter
          (fun e => decide (e.etype = "subfield"))).map entityKey).Nodup ∧
      (((analyze_professor_topics r rels).entities.filter
          (fun e => decide (e.etype = "topic"))).map entityKey).Nodup) ∧
    (∀ table target,
      (((extract_hierarchy table target).1.filter
          (fun e => decide (e.etype ≠ "topic"))).map EEntity.id).Nodup) := by
  refine ⟨?_, extract_nonTopic_nodup⟩
  intro r rels
  have hsets := aggSets_nodup r.papers initAgg (by simp [initAgg])
    (by simp [initAgg]) (by simp [initAgg]) (by simp [initAgg])
  have hent : (analyze_professor_topics r rels).entities =
      profEntityOf r.professor_info (aggStateOf r.papers).topic_papers.length ::
        ((aggStateOf r.papers).domains.filterMap
            (levelEntity "domain" TopicObj.domain r.papers) ++
          (aggStateOf r.papers).fields.filterMap
            (levelEntity "field" TopicObj.field r.papers) ++
          (aggStateOf r.papers).subfields.filterMap
            (levelEntity "subfield" TopicObj.subfield r.papers) ++
          (aggStateOf r.papers).topics.map
            (topicEntityOf (aggStateOf r.papers))) := rfl
  refine ⟨?_, ?_, ?_, ?_⟩
  · have h1 : (analyze_professor_topics r rels).entities.filter
        (fun e => decide (e.etype = "domain")) =
        (aggStateOf r.papers).domains.filterMap
          (levelEntity "domain" TopicObj.domain r.papers) := by
      rw [hent, List.filter_cons, if_neg (by simp [profEntityOf]),
        List.filter_append, List.filter_append, List.filter_append,
        filter_block_all, filter_block_none "domain" "field" (by decide),
        filter_block_none "domain" "subfield" (by decide), filter_topic_block]
      simp
    rw [h1]
    exact block_keys_nodup_of_set_nodup _ _ _ _ hsets.1
  · have h1 : (analyze_professor_topics r rels).entities.filter
        (fun e => decide (e.etype = "field")) =
        (aggStateOf r.papers).fields.filterMap
          (levelEntity "field" TopicObj.field r.papers) := by
      rw [hent, List.filter_cons, if_neg (by simp [profEntityOf]),
        List.filter_append, List.filter_append, List.filter_append,
        filter_block_all, filter_block_none "field" "domain" (by decide),
        filter_block_none "field" "subfield" (by decide), filter_topic_block]
      simp
    rw [h1]
    exact block_keys_nodup_of_set_nodup _ _ _ _ hsets.2.1
  · have h1 : (analyze_professor_topics r rels).entities.filter
        (fun e => decide (e.etype = "subfield")) =
        (aggStateOf r.papers).subfields.filterMap
          (levelEntity "subfield" TopicObj.subfield r.papers) := by
      rw [hent, List.filter_cons, if_neg (by simp [profEntityOf]),
        List.filter_append, List.filter_append, List.filter_append,
        filter_block_all, filter_block_none "subfield" "domain" (by decide),
        filter_block_none "subfield" "field" (by decide), filter_topic_block]
      simp
    rw [h1]
    exact block_keys_nodup_of_set_nodup _ _ _ _ hsets.2.2.1
  · have h1 : (analyze_professor_topics r rels).entities.filter
        (fun e => decide (e.etype = "topic")) =
        (aggStateOf r.papers).topics.map
          (topicEntityOf (aggStateOf r.papers)) := by
      rw [hent, List.filter_cons, if_neg (by simp [profEntityOf]),
        List.filter_append, List.filter_append, List.filter_append,
        filter_block_none "topic" "domain" (by decide),
        filter_block_none "topic" "field" (by decide),
        filter_block_none "topic" "subfield" (by decide), filter_topic_block]
      simp
    rw [h1, topic_block_keys]
    exact hsets.2.2.2.map pair_some_injective

/-- Counterexample for C2 as stated: aggregating `rDup`, whose two papers
carry the same topic id under two display names, emits two topic entities
with the same id, so entities are not deduplicated by id. -/
theorem C2_dedup_counterexample :
    ¬ (((analyze_professor_topics rDup none).entities.map AEntity.id).Nodup) := by
  decide

/-- C6 (amended): the extractor applies no dedup pass to the relationships
list, and a repeated qualifying row does duplicate a subfield→topic pair;
but a domain→field or field→subfield record is emitted only when its child
entity is first seen, so those two types can never repeat a pair. -/
theorem C6_rel_dup_amended :
    (¬ ((relPairsOfType "subfield_to_topic"
        (extract_hierarchy tblBio2 "Biology").2).Nodup)) ∧
    (∀ table target,
      (relPairsOfType "domain_to_field"
        (extract_hierarchy table target).2).Nodup) ∧
    (∀ table target,
      (relPairsOfType "field_to_subfield"
        (extract_hierarchy table target).2).Nodup) :=
  ⟨by decide, extract_relPairs_d2f_nodup, extract_relPairs_f2s_nodup⟩

/-- Counterexample for C6 as stated: it is not the case that all three
relationship types can emit duplicate parent/child pairs — for
domain→field it is impossible on every table and target. -/
theorem C6_rel_dup_counterexample :
    ¬ ((∃ table target, hasDupPairs "domain_to_field" table target) ∧
      (∃ table target, hasDupPairs "field_to_subfield" table target) ∧
      (∃ table target, hasDupPairs "subfield_to_topic" table target)) := by
  rintro ⟨⟨table, target, hd⟩, -, -⟩
  exact hd (extract_relPairs_d2f_nodup table target)

/-- C7: extraction for "Biology" on the one-row reference table yields one
domain, one field, one subfield and one topic entity, and exactly one
relationship of each of the three hierarchy types. -/
theorem C7_biology_single_row :
    ((extract_hierarchy tblBio "Biology").1.filter
      (fun e => decide (e.etype = "domain"))).length = 1 ∧
    ((extract_hierarchy tblBio "Biology").1.filter
      (fun e => decide (e.etype = "field"))).length = 1 ∧
    ((extract_hierarchy tblBio "Biology").1.filter
      (fun e => decide (e.etype = "subfield"))).length = 1 ∧
    ((extract_hierarchy tblBio "Biology").1.filter
      (fun e => decide (e.etype = "topic"))).length = 1 ∧
    (extract_hierarchy tblBio "Biology").1.length = 4 ∧
    (extract_hierarchy tblBio "Biology").2.length = 3 ∧
    ((extract_hierarchy tblBio "Biology").2.filter
      (fun rl => decide (rl.relationship_type = "domain_to_field"))).length = 1 ∧
    ((extract_hierarchy tblBio "Biology").2.filter
      (fun rl => decide (rl.relationship_type = "field_to_subfield"))).length = 1 ∧
    ((extract_hierarchy tblBio "Biology").2.filter
      (fun rl => decide (rl.relationship_type = "subfield_to_topic"))).length = 1 := by
  decide

theorem findSome?_eq_none_of_all {α β : Type} (f : α → Option β) (l : List α)
    (h : ∀ x ∈ l, f x = none) : l.findSome? f = none := by
  induction l with
  | nil => rfl
  | cons a as ih =>
    simp [List.findSome?_cons, h a (List.mem_cons_self a as),
      ih fun x hx => h x (List.mem_cons_of_mem a hx)]

/-- C8: a target name matching no qualifying row's domain, field or
subfield name makes the first pass signal not-found and extraction return
two empty lists. -/
theorem C8_not_found (table : List (List String)) (target : String)
    (h : ∀ row ∈ table, 11 ≤ row.length →
      rowGet row 7 ≠ target ∧ rowGet row 5 ≠ target ∧ rowGet row 3 ≠ target) :
    findLevel table target = none ∧
      extract_hierarchy table target = ([], []) := by
  have hf : findLevel table target = none := by
    apply findSome?_eq_none_of_all
    intro row hrow
    by_cases hlen : row.length < 11
    · simp [hlen]
    · obtain ⟨h7, h5, h3⟩ := h row hrow (by omega)
      simp [hlen, h7, h5, h3]
  refine ⟨hf, ?_⟩
  unfold extract_hierarchy
  rw [hf]

/-- Witness for C8: the one-row Biology table queried for "Chemistry". -/
theorem C8_not_found_witness :
    findLevel tblBio "Chemistry" = none ∧
      extract_hierarchy tblBio "Chemistry" = ([], []) :=
  C8_not_found tblBio "Chemistry" (by decide)
